import Mathlib

/-!
Shallow embedding of the credential lifecycle code of this repository.

The main subject is the PrivateAppUserTokenManager class of src/http/index.ts:
its token cache (a JS Map from appId to token response), its timer table
(a JS Map from appId to interval handle plus the set of outstanding Node
intervals), and its methods init, cleanup, isEnabled, getPrivateAppToken,
setCacheAndRefresh, createOrGetActiveToken, doesTokenHaveAllScopes,
getExistingToken and refreshToken.  The three remote endpoints
(fetchPrivateAppUserToken, createPrivateAppUserToken,
updatePrivateAppUserToken) are external collaborators and are modelled as an
oracle; every invocation of one of them is recorded in a call trace.

The withAuth request resolver of the same file is embedded separately at the
end of the definitions.
-/

/-- Mirrors the PrivateAppUserTokenResponse payload: a token value, its scope
groups and its expiry timestamp (epoch milliseconds, UTC). -/
structure PrivateAppUserTokenResponse where
  userTokenKey : String
  scopeGroups : List String
  expiresAt : Int
  deriving DecidableEq

abbrev Token := PrivateAppUserTokenResponse

/-- JS Map lookup on an association list keyed by Nat. -/
def mapGet {α : Type} (m : List (Nat × α)) (k : Nat) : Option α :=
  (m.find? (fun p => p.1 == k)).map Prod.snd

/-- JS Map.set: replaces any existing binding for the key. -/
def mapSet {α : Type} (m : List (Nat × α)) (k : Nat) (v : α) : List (Nat × α) :=
  (k, v) :: m.filter (fun p => p.1 != k)

/-- JS Map.has. -/
def mapHas {α : Type} (m : List (Nat × α)) (k : Nat) : Bool :=
  m.any (fun p => p.1 == k)

/-- One outstanding Node interval: its handle id, the appId whose refresh it
drives, the delay it was armed with, and the data the refresh callback closed
over (token key and scope groups). -/
structure TimerEntry where
  id : Nat
  appId : Nat
  delayMillis : Int
  userTokenKey : String
  scopeGroups : List String
  deriving DecidableEq

/-- The mutable fields of a PrivateAppUserTokenManager instance, plus the
ambient table of outstanding intervals (liveTimers) and a counter supplying
fresh interval handles. -/
structure ManagerState where
  accountId : Nat
  tokenMap : List (Nat × Token)
  tokenMapIntervalId : List (Nat × Nat)
  liveTimers : List TimerEntry
  nextTimerId : Nat
  enabled : Bool
  deriving DecidableEq

def USER_TOKEN_READ : String := "developer.private_app.temporary_token.read"

def USER_TOKEN_WRITE : String := "developer.private_app.temporary_token.write"

/-- Five minutes, the safety margin the source subtracts from expiry. -/
def SAFETY_MARGIN_MILLIS : Int := 300000

/-- The constructor: empty maps, enabled = false. -/
def newManager (accountId : Nat) : ManagerState :=
  { accountId := accountId
    tokenMap := []
    tokenMapIntervalId := []
    liveTimers := []
    nextTimerId := 0
    enabled := false }

/-- The error shapes thrown by the manager code. -/
inductive TokenManagerError where
  | noScopes
  | apiError
  | refreshFailed
  | transport
  deriving DecidableEq

/-- init: checks the personal-access-key scope groups for the two
token-management scopes; throws noScopes if either is missing, otherwise sets
enabled. -/
def init (pakScopeGroups : List String) (st : ManagerState) :
    Except TokenManagerError ManagerState :=
  if !(pakScopeGroups.contains USER_TOKEN_READ)
      || !(pakScopeGroups.contains USER_TOKEN_WRITE) then
    Except.error TokenManagerError.noScopes
  else
    Except.ok { st with enabled := true }

/-- Node clearInterval: the handle's interval stops being outstanding. -/
def clearInterval (timers : List TimerEntry) (id : Nat) : List TimerEntry :=
  timers.filter (fun e => e.id != id)

/-- cleanup: clears every interval held in tokenMapIntervalId, then clears
both maps.  The enabled flag is not touched. -/
def cleanup (st : ManagerState) : ManagerState :=
  { st with
    liveTimers := st.liveTimers.filter
      (fun e => !(st.tokenMapIntervalId.any (fun p => p.2 == e.id)))
    tokenMapIntervalId := []
    tokenMap := [] }

def isEnabled (st : ManagerState) : Bool := st.enabled

/-- doesTokenHaveAllScopes: requestedScopes.every(s => token.scopeGroups
includes s); false when the token is undefined. -/
def doesTokenHaveAllScopes (token : Option Token) (requestedScopes : List String) : Bool :=
  match token with
  | none => false
  | some t => requestedScopes.all (fun scopeGroup => t.scopeGroups.contains scopeGroup)

/-- setCacheAndRefresh: throws refreshFailed on a null token; otherwise stores
the token, clears any previous interval for the appId, and arms a fresh
interval with delay max(expiresAt - 5min - now, 0). -/
def setCacheAndRefresh (now : Int) (st : ManagerState) (appId : Nat)
    (token : Option Token) (scopeGroups : List String) :
    Except TokenManagerError ManagerState :=
  match token with
  | none => Except.error TokenManagerError.refreshFailed
  | some t =>
    let st1 := { st with tokenMap := mapSet st.tokenMap appId t }
    let st2 :=
      match mapGet st1.tokenMapIntervalId appId with
      | some oldId => { st1 with liveTimers := clearInterval st1.liveTimers oldId }
      | none => st1
    let refreshDelayMillis := max (t.expiresAt - SAFETY_MARGIN_MILLIS - now) 0
    let newId := st2.nextTimerId
    Except.ok { st2 with
      liveTimers := st2.liveTimers ++
        [{ id := newId
           appId := appId
           delayMillis := refreshDelayMillis
           userTokenKey := t.userTokenKey
           scopeGroups := scopeGroups }]
      tokenMapIntervalId := mapSet st2.tokenMapIntervalId appId newId
      nextTimerId := newId + 1 }

/-- Outcome of one fetchPrivateAppUserToken call: a token, an axios 404
(turned into null by getExistingToken), or any other failure (rethrown). -/
inductive FetchOutcome where
  | found (t : Token)
  | status404
  | failure
  deriving DecidableEq

/-- The three remote endpoints, as an oracle.  create and update resolve with
a possibly-null token, or reject. -/
structure AuthEndpoints where
  fetch : Nat → Nat → FetchOutcome
  create : Nat → Nat → List String → Except Unit (Option Token)
  update : Nat → Nat → String → List String → Except Unit (Option Token)

/-- One recorded invocation of a remote endpoint. -/
inductive EndpointCall where
  | fetch (accountId appId : Nat)
  | create (accountId appId : Nat) (scopeGroups : List String)
  | update (accountId appId : Nat) (userTokenKey : String) (scopeGroups : List String)
  deriving DecidableEq

/-- getExistingToken: fetch, mapping a 404 to null and rethrowing anything
else. -/
def getExistingToken (endpoints : AuthEndpoints) (accountId appId : Nat) :
    Except Unit (Option Token) × List EndpointCall :=
  match endpoints.fetch accountId appId with
  | FetchOutcome.found t => (Except.ok (some t), [EndpointCall.fetch accountId appId])
  | FetchOutcome.status404 => (Except.ok none, [EndpointCall.fetch accountId appId])
  | FetchOutcome.failure => (Except.error (), [EndpointCall.fetch accountId appId])

/-- createOrGetActiveToken: probe for an existing remote token; if none,
create one with the requested scope groups; if one exists but is within five
minutes of expiry or lacks a requested scope, update it with the requested
scope groups; otherwise return it as is. -/
def createOrGetActiveToken (endpoints : AuthEndpoints) (now : Int)
    (accountId appId : Nat) (scopeGroups : List String) :
    Except Unit (Option Token) × List EndpointCall :=
  match getExistingToken endpoints accountId appId with
  | (Except.error _, calls) => (Except.error (), calls)
  | (Except.ok none, calls) =>
    (endpoints.create accountId appId scopeGroups,
     calls ++ [EndpointCall.create accountId appId scopeGroups])
  | (Except.ok (some maybeToken), calls) =>
    if now + SAFETY_MARGIN_MILLIS > maybeToken.expiresAt
        || !(doesTokenHaveAllScopes (some maybeToken) scopeGroups) then
      (endpoints.update accountId appId maybeToken.userTokenKey scopeGroups,
       calls ++ [EndpointCall.update accountId appId maybeToken.userTokenKey scopeGroups])
    else
      (Except.ok (some maybeToken), calls)

/-- Result of running one manager method: the returned or thrown value, the
state it leaves behind, and the endpoint calls it made. -/
structure RunResult (α : Type) where
  result : Except TokenManagerError α
  state : ManagerState
  calls : List EndpointCall

/-- getPrivateAppToken: disabled short-circuit, then the cache-hit check
(presence plus scope coverage; no expiry check), else mint or refresh through
createOrGetActiveToken, cache the result and arm the refresh interval.  Every
throw inside the try block is wrapped into an apiError. -/
def getPrivateAppToken (endpoints : AuthEndpoints) (now : Int) (st : ManagerState)
    (appId : Nat) (scopeGroups : List String := []) : RunResult (Option String) :=
  if !st.enabled then
    { result := Except.ok none, state := st, calls := [] }
  else if mapHas st.tokenMap appId
      && doesTokenHaveAllScopes (mapGet st.tokenMap appId) scopeGroups then
    match mapGet st.tokenMap appId with
    | some t => { result := Except.ok (some t.userTokenKey), state := st, calls := [] }
    | none => { result := Except.error TokenManagerError.apiError, state := st, calls := [] }
  else
    match createOrGetActiveToken endpoints now st.accountId appId scopeGroups with
    | (Except.error _, calls) =>
      { result := Except.error TokenManagerError.apiError, state := st, calls := calls }
    | (Except.ok tokenOpt, calls) =>
      match setCacheAndRefresh now st appId tokenOpt scopeGroups with
      | Except.error _ =>
        { result := Except.error TokenManagerError.apiError, state := st, calls := calls }
      | Except.ok st1 =>
        match tokenOpt with
        | some t => { result := Except.ok (some t.userTokenKey), state := st1, calls := calls }
        | none => { result := Except.error TokenManagerError.apiError, state := st1, calls := calls }

/-- refreshToken: the body of the interval callback.  It updates the remote
token and writes the result back through setCacheAndRefresh; a rejection of
the update call propagates out of the callback, and a null result throws
refreshFailed. -/
def refreshToken (endpoints : AuthEndpoints) (now : Int) (st : ManagerState)
    (appId : Nat) (userTokenKey : String) (scopeGroups : List String) :
    RunResult Unit :=
  match endpoints.update st.accountId appId userTokenKey scopeGroups with
  | Except.error _ =>
    { result := Except.error TokenManagerError.transport
      state := st
      calls := [EndpointCall.update st.accountId appId userTokenKey scopeGroups] }
  | Except.ok none =>
    { result := Except.error TokenManagerError.refreshFailed
      state := st
      calls := [EndpointCall.update st.accountId appId userTokenKey scopeGroups] }
  | Except.ok (some newToken) =>
    match setCacheAndRefresh now st appId (some newToken) scopeGroups with
    | Except.ok st1 =>
      { result := Except.ok ()
        state := st1
        calls := [EndpointCall.update st.accountId appId userTokenKey scopeGroups] }
    | Except.error e =>
      { result := Except.error e
        state := st
        calls := [EndpointCall.update st.accountId appId userTokenKey scopeGroups] }

/-- The outstanding intervals that drive refreshes of a given appId. -/
def timersFor (st : ManagerState) (appId : Nat) : List TimerEntry :=
  st.liveTimers.filter (fun e => e.appId == appId)

def PERSONAL_ACCESS_KEY_AUTH_METHOD : String := "personalaccesskey"

def OAUTH_AUTH_METHOD : String := "oauth2"

/-- The stored account fields withAuth consults: the configured auth type,
the stored api key, and whether getOauthManager can build a manager from the
stored oauth fields. -/
structure FlatAccountFields where
  authType : Option String
  apiKey : Option String
  hasOauthManagerConfig : Bool
  deriving DecidableEq

/-- How the outgoing request ends up authenticated. -/
inductive AuthOutcome where
  | bearerFromPersonalAccessKey
  | bearerFromOauth
  | hapikeyQueryParam (apiKey : Option String)
  deriving DecidableEq

/-- The errors withAuth and withOauth throw. -/
inductive HttpAuthError where
  | missingAccountConfig
  | missingOauthManager
  deriving DecidableEq

/-- withAuth: looks the account up, throws when it is absent, dispatches on
authType for personalaccesskey and oauth2, and otherwise falls through to the
hapikey query parameter built from the stored api key. -/
def withAuth (getAccount : Nat → Option FlatAccountFields) (accountId : Nat) :
    Except HttpAuthError AuthOutcome :=
  match getAccount accountId with
  | none => Except.error HttpAuthError.missingAccountConfig
  | some accountConfig =>
    if accountConfig.authType == some PERSONAL_ACCESS_KEY_AUTH_METHOD then
      Except.ok AuthOutcome.bearerFromPersonalAccessKey
    else if accountConfig.authType == some OAUTH_AUTH_METHOD then
      if accountConfig.hasOauthManagerConfig then
        Except.ok AuthOutcome.bearerFromOauth
      else
        Except.error HttpAuthError.missingOauthManager
    else
      Except.ok (AuthOutcome.hapikeyQueryParam accountConfig.apiKey)

theorem mapGet_mapSet_self {α : Type} (m : List (Nat × α)) (k : Nat) (v : α) :
    mapGet (mapSet m k v) k = some v := by
  simp [mapGet, mapSet, List.find?]


/-- The interval table once any previous interval for the appId has been
cleared, as setCacheAndRefresh does before arming. -/
def armedBase (st : ManagerState) (appId : Nat) : List TimerEntry :=
  match mapGet st.tokenMapIntervalId appId with
  | some oldId => clearInterval st.liveTimers oldId
  | none => st.liveTimers

/-- The interval setCacheAndRefresh arms: fresh handle, refresh delay of
max(expiresAt - 5min - now, 0), closing over the token key and scopes. -/
def newTimerEntry (now : Int) (st : ManagerState) (appId : Nat) (t : Token)
    (scopeGroups : List String) : TimerEntry :=
  { id := st.nextTimerId
    appId := appId
    delayMillis := max (t.expiresAt - SAFETY_MARGIN_MILLIS - now) 0
    userTokenKey := t.userTokenKey
    scopeGroups := scopeGroups }

/-- The state setCacheAndRefresh leaves behind on a non-null token. -/
def armedState (now : Int) (st : ManagerState) (appId : Nat) (t : Token)
    (scopeGroups : List String) : ManagerState :=
  { st with
    tokenMap := mapSet st.tokenMap appId t
    liveTimers := armedBase st appId ++ [newTimerEntry now st appId t scopeGroups]
    tokenMapIntervalId := mapSet st.tokenMapIntervalId appId st.nextTimerId
    nextTimerId := st.nextTimerId + 1 }

/-- Whether an endpoint call carries exactly the given scope list (fetch
calls carry none and pass trivially). -/
def callScopesAre (scopes : List String) : EndpointCall → Bool
  | EndpointCall.fetch _ _ => true
  | EndpointCall.create _ _ s => s == scopes
  | EndpointCall.update _ _ _ s => s == scopes

/-- Well-formedness of the timer bookkeeping: interval handles are below the
fresh-handle counter and pairwise distinct, and the interval registered for a
key is exactly the one outstanding interval driving that key. -/
def TimerInv (st : ManagerState) : Prop :=
  (∀ e ∈ st.liveTimers, e.id < st.nextTimerId) ∧
  (st.liveTimers.map TimerEntry.id).Nodup ∧
  (∀ k : Nat,
    (∀ i, mapGet st.tokenMapIntervalId k = some i →
      ∃ e, timersFor st k = [e] ∧ e.id = i) ∧
    (mapGet st.tokenMapIntervalId k = none → timersFor st k = []))

/-- One cache-and-arm step on a non-null token (the state transition of a
successful setCacheAndRefresh). -/
def armOnce (now : Int) (st : ManagerState) (appId : Nat) (t : Token)
    (scopeGroups : List String) : ManagerState :=
  match setCacheAndRefresh now st appId (some t) scopeGroups with
  | Except.ok st1 => st1
  | Except.error _ => st

/-- A sequence of consecutive cache-and-arm steps on one appId. -/
def armSeq (now : Int) (st : ManagerState) (appId : Nat)
    (l : List (Token × List String)) : ManagerState :=
  l.foldl (fun s p => armOnce now s appId p.1 p.2) st

/-- An oracle every operation of which rejects. -/
def noEndpoints : AuthEndpoints :=
  { fetch := fun _ _ => FetchOutcome.failure
    create := fun _ _ _ => Except.error ()
    update := fun _ _ _ _ => Except.error () }

def c1TokenA : Token :=
  { userTokenKey := "k1", scopeGroups := ["scope.a"], expiresAt := 1000000000 }

def c1State : ManagerState :=
  { accountId := 5
    tokenMap := [(1, c1TokenA)]
    tokenMapIntervalId := [(1, 0)]
    liveTimers := [{ id := 0, appId := 1, delayMillis := 0,
                     userTokenKey := "k1", scopeGroups := ["scope.a"] }]
    nextTimerId := 1
    enabled := true }

def c1Endpoints : AuthEndpoints :=
  { fetch := fun _ _ => FetchOutcome.found c1TokenA
    create := fun _ _ s =>
      Except.ok (some { userTokenKey := "k3", scopeGroups := s, expiresAt := 1000000000 })
    update := fun _ _ _ s =>
      Except.ok (some { userTokenKey := "k2", scopeGroups := s, expiresAt := 1000000000 }) }

def c2ExpiredToken : Token :=
  { userTokenKey := "kc2", scopeGroups := ["scope.a"], expiresAt := 100 }

def c2State : ManagerState :=
  { accountId := 5
    tokenMap := [(7, c2ExpiredToken)]
    tokenMapIntervalId := []
    liveTimers := []
    nextTimerId := 0
    enabled := true }

def c4Token : Token :=
  { userTokenKey := "k1", scopeGroups := ["scope.a"], expiresAt := 600000 }

def c4NewToken : Token :=
  { userTokenKey := "k4", scopeGroups := ["scope.a"], expiresAt := 700000 }

def c4State : ManagerState :=
  { accountId := 5
    tokenMap := [(1, c4Token)]
    tokenMapIntervalId := [(1, 0)]
    liveTimers := [{ id := 0, appId := 1, delayMillis := 0,
                     userTokenKey := "k1", scopeGroups := ["scope.a"] }]
    nextTimerId := 1
    enabled := true }

def c4Endpoints : AuthEndpoints :=
  { fetch := fun _ _ => FetchOutcome.failure
    create := fun _ _ _ => Except.error ()
    update := fun _ _ _ _ => Except.ok (some c4NewToken) }

def c5State : ManagerState :=
  { accountId := 6
    tokenMap := [(1, c4Token)]
    tokenMapIntervalId := [(1, 0)]
    liveTimers := [{ id := 0, appId := 1, delayMillis := 0,
                     userTokenKey := "k1", scopeGroups := ["scope.a"] }]
    nextTimerId := 1
    enabled := true }

def c6Token : Token :=
  { userTokenKey := "knew", scopeGroups := ["crm.read"], expiresAt := 900000 }

def c6State : ManagerState :=
  { newManager 5 with enabled := true }

def c6Endpoints : AuthEndpoints :=
  { fetch := fun _ _ => FetchOutcome.status404
    create := fun _ _ _ => Except.ok (some c6Token)
    update := fun _ _ _ _ => Except.error () }

def c7TokenA : Token :=
  { userTokenKey := "t1", scopeGroups := ["scope.a"], expiresAt := 500000 }

def c7TokenB : Token :=
  { userTokenKey := "t2", scopeGroups := ["scope.b"], expiresAt := 800000 }

def UNRECOGNIZED_AUTH : String := "magicauth"

def c8Config : FlatAccountFields :=
  { authType := some UNRECOGNIZED_AUTH, apiKey := none, hasOauthManagerConfig := false }

def c8Store : Nat → Option FlatAccountFields := fun _ => some c8Config

def c9Token : Token :=
  { userTokenKey := "kc9", scopeGroups := ["scope.x", "scope.y"], expiresAt := 400000 }

def c9State : ManagerState :=
  { accountId := 8
    tokenMap := [(2, c9Token)]
    tokenMapIntervalId := []
    liveTimers := []
    nextTimerId := 0
    enabled := true }

def c10Token : Token :=
  { userTokenKey := "k10", scopeGroups := ["scope.a"], expiresAt := 1000 }

def c10NewToken : Token :=
  { userTokenKey := "k10n", scopeGroups := ["scope.z"], expiresAt := 900000 }

def c10State : ManagerState :=
  { accountId := 5
    tokenMap := [(1, c10Token)]
    tokenMapIntervalId := [(1, 0)]
    liveTimers := [{ id := 0, appId := 1, delayMillis := 0,
                     userTokenKey := "k10", scopeGroups := ["scope.a"] }]
    nextTimerId := 1
    enabled := true }

def c10Endpoints : AuthEndpoints :=
  { fetch := fun _ _ => FetchOutcome.status404
    create := fun _ _ _ => Except.ok (some c10NewToken)
    update := fun _ _ _ _ => Except.error () }

theorem find?_filter_of_imp {α : Type} (l : List α) (p q : α → Bool)
    (h : ∀ a, p a = true → q a = true) :
    (l.filter q).find? p = l.find? p := by
  induction l with
  | nil => rfl
  | cons a l ih =>
    by_cases hq : q a = true
    · rw [List.filter_cons_of_pos hq]
      by_cases hp : p a = true
      · rw [List.find?_cons_of_pos _ hp, List.find?_cons_of_pos _ hp]
      · rw [List.find?_cons_of_neg _ (by simpa using hp),
          List.find?_cons_of_neg _ (by simpa using hp), ih]
    · have hp : p a = false := by
        cases hpa : p a
        · rfl
        · exact absurd (h a hpa) (by simpa using hq)
      rw [List.filter_cons_of_neg (by simpa using hq),
        List.find?_cons_of_neg _ (by simp [hp]), ih]

theorem mapGet_mapSet_ne {α : Type} (m : List (Nat × α)) (k k' : Nat) (v : α)
    (h : k' ≠ k) : mapGet (mapSet m k v) k' = mapGet m k' := by
  unfold mapGet mapSet
  rw [List.find?_cons_of_neg _ (by simp; omega), find?_filter_of_imp]
  intro a ha
  have : a.1 = k' := by simpa using ha
  simp [this, h]

theorem mapHas_of_mapGet {α : Type} {m : List (Nat × α)} {k : Nat} {v : α}
    (h : mapGet m k = some v) : mapHas m k = true := by
  unfold mapGet at h
  unfold mapHas
  rw [List.any_eq_true]
  rcases Option.map_eq_some'.mp h with ⟨pair, hfind, _⟩
  have hmem := List.mem_of_find?_eq_some hfind
  have hp := List.find?_some hfind
  exact ⟨pair, hmem, by simpa using hp⟩

theorem setCacheAndRefresh_ok (now : Int) (st : ManagerState) (appId : Nat)
    (t : Token) (scopeGroups : List String) :
    setCacheAndRefresh now st appId (some t) scopeGroups =
      Except.ok (armedState now st appId t scopeGroups) := by
  unfold setCacheAndRefresh armedState armedBase
  cases hmi : mapGet st.tokenMapIntervalId appId <;>
    simp [hmi, newTimerEntry, clearInterval]

theorem armOnce_eq (now : Int) (st : ManagerState) (appId : Nat) (t : Token)
    (scopeGroups : List String) :
    armOnce now st appId t scopeGroups = armedState now st appId t scopeGroups := by
  unfold armOnce
  rw [setCacheAndRefresh_ok]

theorem armedBase_sublist (st : ManagerState) (appId : Nat) :
    (armedBase st appId).Sublist st.liveTimers := by
  unfold armedBase
  cases mapGet st.tokenMapIntervalId appId with
  | none => exact List.Sublist.refl _
  | some oldId => exact List.filter_sublist _

theorem timersFor_armedState_mem (now : Int) (st : ManagerState) (appId : Nat)
    (t : Token) (scopeGroups : List String) :
    newTimerEntry now st appId t scopeGroups ∈
      timersFor (armedState now st appId t scopeGroups) appId := by
  show newTimerEntry now st appId t scopeGroups ∈
    List.filter (fun e => e.appId == appId)
      (armedBase st appId ++ [newTimerEntry now st appId t scopeGroups])
  refine List.mem_filter.mpr ⟨List.mem_append_right _ ?_, by simp [newTimerEntry]⟩
  exact List.mem_singleton_self _

theorem timersFor_armedState_ne_nil (now : Int) (st : ManagerState) (appId : Nat)
    (t : Token) (scopeGroups : List String) :
    timersFor (armedState now st appId t scopeGroups) appId ≠ [] :=
  List.ne_nil_of_mem (timersFor_armedState_mem now st appId t scopeGroups)

theorem timersFor_armedState_self (now : Int) (st : ManagerState) (appId : Nat)
    (t : Token) (scopeGroups : List String) (h : TimerInv st) :
    timersFor (armedState now st appId t scopeGroups) appId =
      [newTimerEntry now st appId t scopeGroups] := by
  obtain ⟨hb, hnd, hk⟩ := h
  show List.filter (fun e => e.appId == appId)
      (armedBase st appId ++ [newTimerEntry now st appId t scopeGroups]) = _
  rw [List.filter_append]
  have hnew : List.filter (fun e => e.appId == appId)
      [newTimerEntry now st appId t scopeGroups] =
      [newTimerEntry now st appId t scopeGroups] := by
    simp [newTimerEntry]
  rw [hnew]
  suffices hbase : List.filter (fun e => e.appId == appId) (armedBase st appId) = [] by
    rw [hbase, List.nil_append]
  unfold armedBase
  cases hmi : mapGet st.tokenMapIntervalId appId with
  | none => exact (hk appId).2 hmi
  | some i =>
    obtain ⟨e0, he0, hid⟩ := (hk appId).1 i hmi
    show List.filter (fun e => e.appId == appId)
      (List.filter (fun e => e.id != i) st.liveTimers) = []
    rw [List.filter_filter]
    have hcomm : List.filter (fun e => (e.appId == appId) && (e.id != i)) st.liveTimers
        = List.filter (fun e => e.id != i)
            (List.filter (fun e => e.appId == appId) st.liveTimers) := by
      rw [List.filter_filter]
      apply List.filter_congr
      intro x _
      exact Bool.and_comm _ _
    rw [hcomm]
    have he0f : List.filter (fun e => e.appId == appId) st.liveTimers = [e0] := he0
    rw [he0f]
    simp [hid]

theorem timersFor_armedState_ne (now : Int) (st : ManagerState) (appId k : Nat)
    (t : Token) (scopeGroups : List String) (h : TimerInv st) (hne : k ≠ appId) :
    timersFor (armedState now st appId t scopeGroups) k = timersFor st k := by
  obtain ⟨hb, hnd, hk⟩ := h
  show List.filter (fun e => e.appId == k)
      (armedBase st appId ++ [newTimerEntry now st appId t scopeGroups]) = _
  rw [List.filter_append]
  have hnew : List.filter (fun e => e.appId == k)
      [newTimerEntry now st appId t scopeGroups] = [] := by
    simp [newTimerEntry]
    omega
  rw [hnew, List.append_nil]
  unfold armedBase
  cases hmi : mapGet st.tokenMapIntervalId appId with
  | none => rfl
  | some i =>
    obtain ⟨e0, he0, hid⟩ := (hk appId).1 i hmi
    have he0mem : e0 ∈ st.liveTimers ∧ (e0.appId == appId) = true := by
      have hmem : e0 ∈ timersFor st appId := by
        rw [he0]
        exact List.mem_singleton_self _
      exact List.mem_filter.mp hmem
    show List.filter (fun e => e.appId == k)
      (List.filter (fun e => e.id != i) st.liveTimers) = _
    rw [List.filter_filter]
    apply List.filter_congr
    intro x hx
    by_cases hxk : (x.appId == k) = true
    · have hxid : (x.id != i) = true := by
        by_contra hc
        have hxi : x.id = i := by simpa using hc
        have hxe : x = e0 := by
          apply List.inj_on_of_nodup_map hnd hx he0mem.1
          show x.id = e0.id
          rw [hxi, hid]
        have hxa : x.appId = appId := by
          rw [hxe]
          simpa using he0mem.2
        have hxk2 : x.appId = k := by simpa using hxk
        exact hne (by omega)
      rw [hxk, hxid]
      rfl
    · have hxk2 : (x.appId == k) = false := by simpa using hxk
      rw [hxk2]
      simp

theorem TimerInv_armedState (now : Int) (st : ManagerState) (appId : Nat)
    (t : Token) (scopeGroups : List String) (h : TimerInv st) :
    TimerInv (armedState now st appId t scopeGroups) := by
  obtain ⟨hb, hnd, hk⟩ := h
  refine ⟨?_, ?_, ?_⟩
  · intro e he
    show e.id < st.nextTimerId + 1
    have he2 : e ∈ armedBase st appId ++ [newTimerEntry now st appId t scopeGroups] := he
    rcases List.mem_append.mp he2 with h1 | h1
    · have hmem : e ∈ st.liveTimers := (armedBase_sublist st appId).subset h1
      have := hb e hmem
      omega
    · have : e = newTimerEntry now st appId t scopeGroups := List.mem_singleton.mp h1
      rw [this]
      show st.nextTimerId < st.nextTimerId + 1
      omega
  · show ((armedBase st appId ++ [newTimerEntry now st appId t scopeGroups]).map
      TimerEntry.id).Nodup
    rw [List.map_append]
    apply List.Nodup.append
    · exact List.Nodup.sublist ((armedBase_sublist st appId).map TimerEntry.id) hnd
    · exact List.nodup_singleton _
    · intro a ha ha2
      have ha3 : a = (newTimerEntry now st appId t scopeGroups).id := by
        simpa using ha2
      obtain ⟨e, hemem, herfl⟩ := List.mem_map.mp ha
      have hmem : e ∈ st.liveTimers := (armedBase_sublist st appId).subset hemem
      have := hb e hmem
      have hid : (newTimerEntry now st appId t scopeGroups).id = st.nextTimerId := rfl
      omega
  · intro k
    by_cases hka : k = appId
    · subst hka
      constructor
      · intro i hi
        have hget : mapGet (mapSet st.tokenMapIntervalId k st.nextTimerId) k =
            some st.nextTimerId := mapGet_mapSet_self _ _ _
        have hi2 : i = st.nextTimerId := by
          have : some i = some st.nextTimerId := by rw [← hi]; exact hget
          exact Option.some.inj this
        refine ⟨newTimerEntry now st k t scopeGroups, ?_, ?_⟩
        · exact timersFor_armedState_self now st k t scopeGroups ⟨hb, hnd, hk⟩
        · rw [hi2]
          rfl
      · intro hnone
        have hget : mapGet (mapSet st.tokenMapIntervalId k st.nextTimerId) k =
            some st.nextTimerId := mapGet_mapSet_self _ _ _
        rw [show mapGet (armedState now st k t scopeGroups).tokenMapIntervalId k =
          mapGet (mapSet st.tokenMapIntervalId k st.nextTimerId) k from rfl] at hnone
        rw [hget] at hnone
        cases hnone
    · have hget : mapGet (armedState now st appId t scopeGroups).tokenMapIntervalId k =
          mapGet st.tokenMapIntervalId k := mapGet_mapSet_ne _ _ _ _ hka
      have htf : timersFor (armedState now st appId t scopeGroups) k = timersFor st k :=
        timersFor_armedState_ne now st appId k t scopeGroups ⟨hb, hnd, hk⟩ hka
      constructor
      · intro i hi
        rw [hget] at hi
        obtain ⟨e, he, hid⟩ := (hk k).1 i hi
        exact ⟨e, by rw [htf]; exact he, hid⟩
      · intro hnone
        rw [hget] at hnone
        rw [htf]
        exact (hk k).2 hnone

theorem TimerInv_newManager (accountId : Nat) : TimerInv (newManager accountId) := by
  refine ⟨?_, ?_, ?_⟩
  · intro e he
    simp [newManager] at he
  · simp [newManager]
  · intro k
    constructor
    · intro i hi
      simp [newManager, mapGet] at hi
    · intro _
      rfl

theorem createOrGet_calls_scopes (endpoints : AuthEndpoints) (now : Int)
    (accountId appId : Nat) (scopeGroups : List String) :
    ((createOrGetActiveToken endpoints now accountId appId scopeGroups).2).all
      (callScopesAre scopeGroups) = true := by
  unfold createOrGetActiveToken getExistingToken
  cases endpoints.fetch accountId appId with
  | found t =>
    by_cases hc : (now + SAFETY_MARGIN_MILLIS > t.expiresAt
        || !(doesTokenHaveAllScopes (some t) scopeGroups)) = true
    · simp only [hc, if_true]
      simp [callScopesAre]
    · simp only [Bool.not_eq_true] at hc
      simp only [hc, Bool.false_eq_true, if_false]
      simp [callScopesAre]
  | status404 => simp [callScopesAre]
  | failure => simp [callScopesAre]

theorem getToken_miss_create_run (endpoints : AuthEndpoints) (now : Int)
    (st : ManagerState) (appId : Nat) (scopeGroups : List String) (t : Token)
    (hen : st.enabled = true) (hmiss : mapHas st.tokenMap appId = false)
    (hfetch : endpoints.fetch st.accountId appId = FetchOutcome.status404)
    (hcreate : endpoints.create st.accountId appId scopeGroups = Except.ok (some t)) :
    getPrivateAppToken endpoints now st appId scopeGroups =
      { result := Except.ok (some t.userTokenKey)
        state := armedState now st appId t scopeGroups
        calls := [EndpointCall.fetch st.accountId appId,
                  EndpointCall.create st.accountId appId scopeGroups] } := by
  have hco : createOrGetActiveToken endpoints now st.accountId appId scopeGroups =
      (Except.ok (some t),
       [EndpointCall.fetch st.accountId appId,
        EndpointCall.create st.accountId appId scopeGroups]) := by
    unfold createOrGetActiveToken getExistingToken
    rw [hfetch]
    simp [hcreate]
  unfold getPrivateAppToken
  rw [hen, hmiss]
  simp only [Bool.not_true, Bool.false_eq_true, if_false, Bool.false_and]
  rw [hco]
  simp [setCacheAndRefresh_ok]

/-- Claim C1, counterexample.  A cached token for appId 1 carries scope set
{scope.a}; a getToken call requiring {scope.b} triggers an update whose
requested scopes are exactly {scope.b}, not the union {scope.a, scope.b}, and
the cached record afterwards has lost scope.a: the scope set shrank. -/
theorem c1_counterexample :
    (mapGet c1State.tokenMap 1).map (fun t => t.scopeGroups) = some ["scope.a"] ∧
    (getPrivateAppToken c1Endpoints 0 c1State 1 ["scope.b"]).calls =
      [EndpointCall.fetch 5 1,
       EndpointCall.update 5 1 c1TokenA.userTokenKey ["scope.b"]] ∧
    (mapGet (getPrivateAppToken c1Endpoints 0 c1State 1 ["scope.b"]).state.tokenMap 1).map
      (fun t => t.scopeGroups) = some ["scope.b"] ∧
    (["scope.b"] : List String).contains ("scope.a") = false :=
  ⟨rfl, rfl, rfl, by decide⟩

/-- Claim C1, amended: every create or update invocation issued by a getToken
call carries exactly the requiredScopes of that call; the previously cached
scope set is not merged in, so the scope set on the cached record can
shrink. -/
theorem getPrivateAppToken_calls (endpoints : AuthEndpoints) (now : Int)
    (st : ManagerState) (appId : Nat) (scopeGroups : List String) :
    (getPrivateAppToken endpoints now st appId scopeGroups).calls = [] ∨
    (getPrivateAppToken endpoints now st appId scopeGroups).calls =
      (createOrGetActiveToken endpoints now st.accountId appId scopeGroups).2 := by
  unfold getPrivateAppToken
  split
  · exact Or.inl rfl
  · split
    · split
      · exact Or.inl rfl
      · exact Or.inl rfl
    · rcases hco : createOrGetActiveToken endpoints now st.accountId appId scopeGroups with ⟨res, calls⟩
      cases res with
      | error e => exact Or.inr rfl
      | ok tokenOpt =>
        refine Or.inr ?_
        split
        next x a calls2 heq =>
          simp at heq
        next x tokenOpt2 calls2 heq =>
          injection heq with h1 h2
          injection h1 with h3
          subst h3
          subst h2
          split
          · rfl
          · split <;> rfl

theorem c1_endpoint_scopes_are_request_scopes (endpoints : AuthEndpoints) (now : Int)
    (st : ManagerState) (appId : Nat) (scopeGroups : List String) :
    ((getPrivateAppToken endpoints now st appId scopeGroups).calls).all
      (callScopesAre scopeGroups) = true := by
  rcases getPrivateAppToken_calls endpoints now st appId scopeGroups with h | h
  · rw [h]
    rfl
  · rw [h]
    exact createOrGet_calls_scopes endpoints now st.accountId appId scopeGroups

/-- Claim C2, counterexample.  The cached token for appId 7 expired long
before the call (expiresAt 100 versus now 1000000), yet getToken serves it
from the cache with no endpoint invocation: an expired cached record is not
treated as a cache miss. -/
theorem c2_counterexample :
    c2ExpiredToken.expiresAt < 1000000 ∧
    mapGet c2State.tokenMap 7 = some c2ExpiredToken ∧
    getPrivateAppToken noEndpoints 1000000 c2State 7 ["scope.a"] =
      { result := Except.ok (some c2ExpiredToken.userTokenKey)
        state := c2State
        calls := [] } :=
  ⟨by decide, rfl, rfl⟩

/-- Claim C2, amended: the cached record's value is returned directly exactly
when the record exists and its scopes cover requiredScopes; expiry is not
consulted on the cache-hit path, so even an expired record is served. -/
theorem c2_cache_hit_ignores_expiry (endpoints : AuthEndpoints) (now : Int)
    (st : ManagerState) (appId : Nat) (scopeGroups : List String) (t : Token)
    (hen : st.enabled = true)
    (hget : mapGet st.tokenMap appId = some t)
    (hcov : doesTokenHaveAllScopes (some t) scopeGroups = true) :
    getPrivateAppToken endpoints now st appId scopeGroups =
      { result := Except.ok (some t.userTokenKey), state := st, calls := [] } := by
  have hhas := mapHas_of_mapGet hget
  simp [getPrivateAppToken, hen, hhas, hget, hcov]

/-- Witness for the amended C2 theorem at an expired cached token. -/
theorem c2_cache_hit_ignores_expiry_witness :
    getPrivateAppToken noEndpoints 1000000 c2State 7 ["scope.a"] =
      { result := Except.ok (some c2ExpiredToken.userTokenKey)
        state := c2State
        calls := [] } :=
  c2_cache_hit_ignores_expiry noEndpoints 1000000 c2State 7 ["scope.a"]
    c2ExpiredToken rfl rfl (by decide)

/-- Claim C3, counterexample.  With the write scope missing from the granted
scope groups, init throws the noScopes error instead of returning normally:
the failure is raised, not silently converted into a disabled state. -/
theorem c3_counterexample :
    ([USER_TOKEN_READ] : List String).contains USER_TOKEN_WRITE = false ∧
    init [USER_TOKEN_READ] (newManager 123) = Except.error TokenManagerError.noScopes :=
  ⟨by decide, rfl⟩

/-- Claim C3, amended: when the two token-management scopes are not both
granted, init raises the noScopes error; the manager is left with its
constructor state, in which enabled is false, so every getToken call returns
absent without any endpoint invocation. -/
theorem c3_init_raises_and_manager_stays_disabled
    (pakScopeGroups : List String) (accountId : Nat) (endpoints : AuthEndpoints)
    (now : Int) (appId : Nat) (scopeGroups : List String)
    (h : pakScopeGroups.contains USER_TOKEN_READ = false ∨
         pakScopeGroups.contains USER_TOKEN_WRITE = false) :
    init pakScopeGroups (newManager accountId) = Except.error TokenManagerError.noScopes ∧
    getPrivateAppToken endpoints now (newManager accountId) appId scopeGroups =
      { result := Except.ok none, state := newManager accountId, calls := [] } := by
  constructor
  · unfold init
    rcases h with h | h
    · rw [h]
      simp
    · rw [h]
      simp
  · simp [getPrivateAppToken, newManager]

/-- Witness for the amended C3 theorem. -/
theorem c3_init_raises_and_manager_stays_disabled_witness :
    init [USER_TOKEN_READ] (newManager 123) = Except.error TokenManagerError.noScopes ∧
    getPrivateAppToken noEndpoints 0 (newManager 123) 9 [] =
      { result := Except.ok none, state := newManager 123, calls := [] } :=
  c3_init_raises_and_manager_stays_disabled [USER_TOKEN_READ] 123 noEndpoints 0 9 []
    (Or.inr (by decide))

/-- Claim C4, counterexample.  After cleanup both maps are empty, yet a
refresh callback that was in flight at cleanup time re-inserts its token into
the cache and arms a new interval when it completes: no shut-down flag
suppresses the write-back. -/
theorem c4_counterexample :
    (cleanup c4State).tokenMap = [] ∧
    (cleanup c4State).liveTimers = [] ∧
    mapGet (refreshToken c4Endpoints 0 (cleanup c4State) 1 c4Token.userTokenKey
      ["scope.a"]).state.tokenMap 1 = some c4NewToken ∧
    (refreshToken c4Endpoints 0 (cleanup c4State) 1 c4Token.userTokenKey
      ["scope.a"]).state.liveTimers ≠ [] :=
  ⟨rfl, rfl, rfl, by decide⟩

/-- Claim C4, amended: cleanup clears the interval table and the cache but
sets no shut-down flag; an in-flight refresh callback that completes
successfully after cleanup writes its token back into the cache and arms a
fresh interval. -/
theorem c4_no_shutdown_flag_inflight_refresh_writes_back
    (endpoints : AuthEndpoints) (now : Int) (st : ManagerState) (appId : Nat)
    (userTokenKey : String) (scopeGroups : List String) (t : Token)
    (hupd : endpoints.update st.accountId appId userTokenKey scopeGroups =
      Except.ok (some t)) :
    (refreshToken endpoints now (cleanup st) appId userTokenKey scopeGroups).result =
      Except.ok () ∧
    mapGet (refreshToken endpoints now (cleanup st) appId userTokenKey
      scopeGroups).state.tokenMap appId = some t ∧
    timersFor (refreshToken endpoints now (cleanup st) appId userTokenKey
      scopeGroups).state appId ≠ [] := by
  have hrun : refreshToken endpoints now (cleanup st) appId userTokenKey scopeGroups =
      { result := Except.ok ()
        state := armedState now (cleanup st) appId t scopeGroups
        calls := [EndpointCall.update st.accountId appId userTokenKey scopeGroups] } := by
    unfold refreshToken
    have hupd2 : endpoints.update (cleanup st).accountId appId userTokenKey scopeGroups =
        Except.ok (some t) := hupd
    rw [hupd2]
    simp [setCacheAndRefresh_ok, cleanup]
  rw [hrun]
  exact ⟨rfl, mapGet_mapSet_self _ _ _, timersFor_armedState_ne_nil _ _ _ _ _⟩

/-- Witness for the amended C4 theorem. -/
theorem c4_no_shutdown_flag_inflight_refresh_writes_back_witness :
    (refreshToken c4Endpoints 0 (cleanup c4State) 1 c4Token.userTokenKey
      ["scope.a"]).result = Except.ok () ∧
    mapGet (refreshToken c4Endpoints 0 (cleanup c4State) 1 c4Token.userTokenKey
      ["scope.a"]).state.tokenMap 1 = some c4NewToken ∧
    timersFor (refreshToken c4Endpoints 0 (cleanup c4State) 1 c4Token.userTokenKey
      ["scope.a"]).state 1 ≠ [] :=
  c4_no_shutdown_flag_inflight_refresh_writes_back c4Endpoints 0 c4State 1
    c4Token.userTokenKey ["scope.a"] c4NewToken rfl

/-- Claim C5, counterexample.  When the update endpoint rejects, the refresh
callback finishes with a thrown error (an unhandled rejection at the interval
boundary), not a swallowed-and-logged one; the cache entry is untouched. -/
theorem c5_counterexample :
    refreshToken noEndpoints 0 c5State 1 c4Token.userTokenKey ["scope.a"] =
      { result := Except.error TokenManagerError.transport
        state := c5State
        calls := [EndpointCall.update 6 1 c4Token.userTokenKey ["scope.a"]] } := rfl

/-- Claim C5, amended: when the scheduler-triggered refresh fails (the update
endpoint rejects or resolves with no token), the callback terminates with a
thrown error that propagates out of the callback uncaught; it performs no
retry of its own and leaves the cache and interval table unchanged. -/
theorem c5_refresh_failure_propagates_uncaught
    (endpoints : AuthEndpoints) (now : Int) (st : ManagerState) (appId : Nat)
    (userTokenKey : String) (scopeGroups : List String)
    (h : endpoints.update st.accountId appId userTokenKey scopeGroups =
        Except.error () ∨
      endpoints.update st.accountId appId userTokenKey scopeGroups =
        Except.ok none) :
    (∃ e, (refreshToken endpoints now st appId userTokenKey scopeGroups).result =
      Except.error e) ∧
    (refreshToken endpoints now st appId userTokenKey scopeGroups).state = st ∧
    (refreshToken endpoints now st appId userTokenKey scopeGroups).calls =
      [EndpointCall.update st.accountId appId userTokenKey scopeGroups] := by
  rcases h with h | h
  · unfold refreshToken
    rw [h]
    exact ⟨⟨TokenManagerError.transport, rfl⟩, rfl, rfl⟩
  · unfold refreshToken
    rw [h]
    exact ⟨⟨TokenManagerError.refreshFailed, rfl⟩, rfl, rfl⟩

/-- Witness for the amended C5 theorem. -/
theorem c5_refresh_failure_propagates_uncaught_witness :
    (∃ e, (refreshToken noEndpoints 0 c5State 1 c4Token.userTokenKey
      ["scope.a"]).result = Except.error e) ∧
    (refreshToken noEndpoints 0 c5State 1 c4Token.userTokenKey ["scope.a"]).state =
      c5State ∧
    (refreshToken noEndpoints 0 c5State 1 c4Token.userTokenKey ["scope.a"]).calls =
      [EndpointCall.update 6 1 c4Token.userTokenKey ["scope.a"]] :=
  c5_refresh_failure_propagates_uncaught noEndpoints 0 c5State 1 c4Token.userTokenKey
    ["scope.a"] (Or.inl rfl)

/-- Claim C6: with no cached token and a 404 from the fetch probe, getToken
invokes create exactly once with the requested scopes, caches the returned
record, and arms the refresh interval with delay
max(expiresAt - 5min - now, 0). -/
theorem c6_notfound_mints_once_and_arms
    (endpoints : AuthEndpoints) (now : Int) (st : ManagerState) (appId : Nat)
    (scopeGroups : List String) (t : Token)
    (hen : st.enabled = true)
    (hmiss : mapHas st.tokenMap appId = false)
    (hfetch : endpoints.fetch st.accountId appId = FetchOutcome.status404)
    (hcreate : endpoints.create st.accountId appId scopeGroups = Except.ok (some t)) :
    (getPrivateAppToken endpoints now st appId scopeGroups).result =
      Except.ok (some t.userTokenKey) ∧
    (getPrivateAppToken endpoints now st appId scopeGroups).calls =
      [EndpointCall.fetch st.accountId appId,
       EndpointCall.create st.accountId appId scopeGroups] ∧
    mapGet (getPrivateAppToken endpoints now st appId scopeGroups).state.tokenMap
      appId = some t ∧
    (getPrivateAppToken endpoints now st appId scopeGroups).state.liveTimers.getLast? =
      some { id := st.nextTimerId
             appId := appId
             delayMillis := max (t.expiresAt - SAFETY_MARGIN_MILLIS - now) 0
             userTokenKey := t.userTokenKey
             scopeGroups := scopeGroups } := by
  have hrun := getToken_miss_create_run endpoints now st appId scopeGroups t hen
    hmiss hfetch hcreate
  rw [hrun]
  refine ⟨rfl, rfl, mapGet_mapSet_self _ _ _, ?_⟩
  show (armedBase st appId ++ [newTimerEntry now st appId t scopeGroups]).getLast? = _
  rw [List.getLast?_concat]
  rfl

/-- Witness for the C6 theorem. -/
theorem c6_notfound_mints_once_and_arms_witness :
    (getPrivateAppToken c6Endpoints 100000 c6State 42 ["crm.read"]).result =
      Except.ok (some c6Token.userTokenKey) ∧
    (getPrivateAppToken c6Endpoints 100000 c6State 42 ["crm.read"]).calls =
      [EndpointCall.fetch 5 42, EndpointCall.create 5 42 ["crm.read"]] ∧
    mapGet (getPrivateAppToken c6Endpoints 100000 c6State 42
      ["crm.read"]).state.tokenMap 42 = some c6Token ∧
    (getPrivateAppToken c6Endpoints 100000 c6State 42
      ["crm.read"]).state.liveTimers.getLast? =
      some { id := 0, appId := 42, delayMillis := 500000,
             userTokenKey := c6Token.userTokenKey, scopeGroups := ["crm.read"] } :=
  c6_notfound_mints_once_and_arms c6Endpoints 100000 c6State 42 ["crm.read"] c6Token
    rfl rfl rfl rfl

/-- Claim C7: after any nonempty run of consecutive cache-and-arm steps for
one appId, exactly one interval is outstanding for that appId; arming a key
whose interval already exists clears the previous interval first, which is
what keeps the count at one. -/
theorem c7_exactly_one_timer_after_consecutive_arms (now : Int) (appId : Nat)
    (l : List (Token × List String)) :
    ∀ st : ManagerState, TimerInv st → l ≠ [] →
      (timersFor (armSeq now st appId l) appId).length = 1 := by
  induction l with
  | nil =>
    intro st _ hl
    exact absurd rfl hl
  | cons p rest ih =>
    intro st hInv _
    have hstep : armSeq now st appId (p :: rest) =
        armSeq now (armOnce now st appId p.1 p.2) appId rest := rfl
    rw [hstep]
    have hInv2 : TimerInv (armOnce now st appId p.1 p.2) := by
      rw [armOnce_eq]
      exact TimerInv_armedState now st appId p.1 p.2 hInv
    cases rest with
    | nil =>
      have harm : armSeq now (armOnce now st appId p.1 p.2) appId [] =
          armOnce now st appId p.1 p.2 := rfl
      rw [harm, armOnce_eq]
      rw [timersFor_armedState_self now st appId p.1 p.2 hInv]
      rfl
    | cons q rest2 =>
      exact ih (armOnce now st appId p.1 p.2) hInv2 (List.cons_ne_nil _ _)

/-- Witness for the C7 theorem: two consecutive arms on appId 3 leave exactly
one outstanding interval. -/
theorem c7_exactly_one_timer_after_consecutive_arms_witness :
    (timersFor (armSeq 0 (newManager 9) 3
      [(c7TokenA, ["scope.a"]), (c7TokenB, ["scope.b"])]) 3).length = 1 :=
  c7_exactly_one_timer_after_consecutive_arms 0 3
    [(c7TokenA, ["scope.a"]), (c7TokenB, ["scope.b"])] (newManager 9)
    (TimerInv_newManager 9) (List.cons_ne_nil _ _)

/-- Claim C8, counterexample.  An account whose configured auth type is the
unrecognized string held in UNRECOGNIZED_AUTH, with no stored api key,
resolves successfully to hapikey query-parameter authentication instead of
failing with an auth-resolution error. -/
theorem c8_counterexample :
    c8Config.authType ≠ some PERSONAL_ACCESS_KEY_AUTH_METHOD ∧
    c8Config.authType ≠ some OAUTH_AUTH_METHOD ∧
    c8Config.apiKey = none ∧
    withAuth c8Store 77 = Except.ok (AuthOutcome.hapikeyQueryParam none) :=
  ⟨by decide, by decide, rfl, rfl⟩

/-- Claim C8, amended: for an account whose auth type is neither
personalaccesskey nor oauth2, withAuth does not fail; it falls through to
hapikey query-parameter authentication carrying the stored api key (possibly
absent).  Resolution errors arise only for a missing account config or a
missing oauth manager. -/
theorem c8_unrecognized_auth_type_falls_back_to_hapikey
    (getAccount : Nat → Option FlatAccountFields) (accountId : Nat)
    (cfg : FlatAccountFields)
    (hget : getAccount accountId = some cfg)
    (h1 : cfg.authType ≠ some PERSONAL_ACCESS_KEY_AUTH_METHOD)
    (h2 : cfg.authType ≠ some OAUTH_AUTH_METHOD) :
    withAuth getAccount accountId =
      Except.ok (AuthOutcome.hapikeyQueryParam cfg.apiKey) := by
  unfold withAuth
  rw [hget]
  have hb1 : (cfg.authType == some PERSONAL_ACCESS_KEY_AUTH_METHOD) = false := by
    simpa using h1
  have hb2 : (cfg.authType == some OAUTH_AUTH_METHOD) = false := by
    simpa using h2
  simp [hb1, hb2]

/-- Witness for the amended C8 theorem. -/
theorem c8_unrecognized_auth_type_falls_back_to_hapikey_witness :
    withAuth c8Store 77 = Except.ok (AuthOutcome.hapikeyQueryParam c8Config.apiKey) :=
  c8_unrecognized_auth_type_falls_back_to_hapikey c8Store 77 c8Config rfl
    (by decide) (by decide)

/-- Claim C9: with the empty required-scope list (the declared default), any
cached record is served directly, whatever scopes it carries, with no
endpoint invocation: the coverage check is vacuously true on the empty
list. -/
theorem c9_empty_scopes_serve_cache (endpoints : AuthEndpoints) (now : Int)
    (st : ManagerState) (appId : Nat) (t : Token)
    (hen : st.enabled = true)
    (hget : mapGet st.tokenMap appId = some t) :
    getPrivateAppToken endpoints now st appId [] =
      { result := Except.ok (some t.userTokenKey), state := st, calls := [] } := by
  have hhas := mapHas_of_mapGet hget
  have hcov : doesTokenHaveAllScopes (some t) [] = true := rfl
  simp [getPrivateAppToken, hen, hhas, hget, hcov]

/-- Witness for the C9 theorem. -/
theorem c9_empty_scopes_serve_cache_witness :
    getPrivateAppToken noEndpoints 0 c9State 2 [] =
      { result := Except.ok (some c9Token.userTokenKey), state := c9State, calls := [] } :=
  c9_empty_scopes_serve_cache noEndpoints 0 c9State 2 c9Token rfl rfl

/-- Claim C10: cleanup clears only the token map and the interval table; the
enabled flag is untouched, so isEnabled still reports true and a later
getToken call passes the disabled short-circuit, mints a fresh token over the
network, and arms a new interval. -/
theorem c10_cleanup_keeps_enabled_and_remints
    (endpoints : AuthEndpoints) (now : Int) (st : ManagerState) (appId : Nat)
    (scopeGroups : List String) (t : Token)
    (hen : st.enabled = true)
    (hfetch : endpoints.fetch st.accountId appId = FetchOutcome.status404)
    (hcreate : endpoints.create st.accountId appId scopeGroups = Except.ok (some t)) :
    (cleanup st).enabled = st.enabled ∧
    isEnabled (cleanup st) = true ∧
    (getPrivateAppToken endpoints now (cleanup st) appId scopeGroups).result =
      Except.ok (some t.userTokenKey) ∧
    (getPrivateAppToken endpoints now (cleanup st) appId scopeGroups).calls =
      [EndpointCall.fetch st.accountId appId,
       EndpointCall.create st.accountId appId scopeGroups] ∧
    mapGet (getPrivateAppToken endpoints now (cleanup st) appId
      scopeGroups).state.tokenMap appId = some t ∧
    timersFor (getPrivateAppToken endpoints now (cleanup st) appId
      scopeGroups).state appId ≠ [] := by
  have hen2 : (cleanup st).enabled = true := hen
  have hmiss : mapHas (cleanup st).tokenMap appId = false := rfl
  have hfetch2 : endpoints.fetch (cleanup st).accountId appId =
      FetchOutcome.status404 := hfetch
  have hcreate2 : endpoints.create (cleanup st).accountId appId scopeGroups =
      Except.ok (some t) := hcreate
  have hrun := getToken_miss_create_run endpoints now (cleanup st) appId scopeGroups t
    hen2 hmiss hfetch2 hcreate2
  rw [hrun]
  exact ⟨rfl, hen, rfl, rfl, mapGet_mapSet_self _ _ _,
    timersFor_armedState_ne_nil _ _ _ _ _⟩

/-- Witness for the C10 theorem. -/
theorem c10_cleanup_keeps_enabled_and_remints_witness :
    (cleanup c10State).enabled = c10State.enabled ∧
    isEnabled (cleanup c10State) = true ∧
    (getPrivateAppToken c10Endpoints 0 (cleanup c10State) 1 ["scope.z"]).result =
      Except.ok (some c10NewToken.userTokenKey) ∧
    (getPrivateAppToken c10Endpoints 0 (cleanup c10State) 1 ["scope.z"]).calls =
      [EndpointCall.fetch 5 1, EndpointCall.create 5 1 ["scope.z"]] ∧
    mapGet (getPrivateAppToken c10Endpoints 0 (cleanup c10State) 1
      ["scope.z"]).state.tokenMap 1 = some c10NewToken ∧
    timersFor (getPrivateAppToken c10Endpoints 0 (cleanup c10State) 1
      ["scope.z"]).state 1 ≠ [] :=
  c10_cleanup_keeps_enabled_and_remints c10Endpoints 0 c10State 1 ["scope.z"]
    c10NewToken rfl rfl rfl
